import Mathlib

/-!
Verification development for the batch video-analysis pipeline of the
tiktok-scraper-analyzer repository.

The driver (`main.py`) is the only source file present; the analyzer module
it imports (`get_config`/`resolve_config`, `VideoAnalyzer.analyze_batch`,
`VideoAnalyzer.update_metadata_file`, the frame sampler) exists only through
its specification, so those components are modelled here from the spec's
words, while the counting loop of `run_analysis` (main.py lines 279-308) is
embedded directly from the source.
-/

set_option autoImplicit false

namespace TikTokAnalyzer

/-- The five ordered thoroughness presets (spec §4.1, main.py `--thoroughness`). -/
inductive Preset where
  | quick
  | balanced
  | thorough
  | maximum
  | extreme
deriving DecidableEq

/-- The two face-detection model variants (spec §3, main.py `--face-model`). -/
inductive FaceModel where
  | short
  | full
deriving DecidableEq

/-- Modelled from the spec: `AnalysisConfig` (spec §3).  Numeric fields are
naturals; `sample_percentage` and `workers` are optional (percentage unset
means count-based sampling; workers unset means auto). -/
structure AnalysisConfig where
  thoroughness : Preset
  sample_frames : Nat
  sample_percentage : Option Nat
  color_clusters : Nat
  motion_resolution : Nat
  face_model : FaceModel
  use_yolo : Bool
  scene_detection : Bool
  full_resolution : Bool
  enable_audio : Bool
  workers : Option Nat
deriving DecidableEq

/-- Modelled from the spec: the explicit overrides accepted by
`resolve_config` (spec §6).  `none` means the override was not supplied.
Numeric overrides are integers so that out-of-range values are
representable. -/
structure Overrides where
  sample_frames : Option Int := none
  sample_percentage : Option Int := none
  color_clusters : Option Int := none
  motion_resolution : Option Int := none
  face_model : Option FaceModel := none
  enable_audio : Option Bool := none
  workers : Option Int := none
  scene_detection : Option Bool := none
  full_resolution : Option Bool := none

/-- Modelled from the spec: `ConfigError` (spec §7), carrying the offending
field name and value. -/
inductive ConfigError where
  | outOfRange (field : String) (value : Int)
deriving DecidableEq

/-- Range check for a single optional numeric override: `none` when absent or
within `[lo, hi]`, otherwise the `ConfigError`. -/
def rangeError (field : String) (lo hi : Int) (v? : Option Int) : Option ConfigError :=
  match v? with
  | none => none
  | some v => if v < lo || hi < v then some (.outOfRange field v) else none

/-- Lower-bound-only check (for `workers`, which has no documented upper
bound). -/
def minError (field : String) (lo : Int) (v? : Option Int) : Option ConfigError :=
  match v? with
  | none => none
  | some v => if v < lo then some (.outOfRange field v) else none

/-- Modelled from the spec: override validation — each numeric override must
lie within its documented bound (spec §4.1, §6), first failure reported. -/
def validateOverrides (ov : Overrides) : Option ConfigError :=
  (rangeError "sample_frames" 1 300 ov.sample_frames).orElse fun _ =>
  (rangeError "sample_percentage" 1 100 ov.sample_percentage).orElse fun _ =>
  (rangeError "color_clusters" 3 20 ov.color_clusters).orElse fun _ =>
  (rangeError "motion_resolution" 80 1080 ov.motion_resolution).orElse fun _ =>
  minError "workers" 1 ov.workers

/-- Modelled from the spec: the fixed table of five ordered preset defaults
(spec §4.1); every numeric default lies within its documented bound, as the
spec's invariant requires.  `scene_detection`/`full_resolution` stay false in
the base table: the extreme post-pass is applied separately. -/
def presetDefaults : Preset → AnalysisConfig
  | .quick =>
    { thoroughness := .quick, sample_frames := 30, sample_percentage := none,
      color_clusters := 5, motion_resolution := 160, face_model := .short,
      use_yolo := false, scene_detection := false, full_resolution := false,
      enable_audio := true, workers := none }
  | .balanced =>
    { thoroughness := .balanced, sample_frames := 60, sample_percentage := none,
      color_clusters := 8, motion_resolution := 320, face_model := .short,
      use_yolo := true, scene_detection := false, full_resolution := false,
      enable_audio := true, workers := none }
  | .thorough =>
    { thoroughness := .thorough, sample_frames := 120, sample_percentage := none,
      color_clusters := 10, motion_resolution := 480, face_model := .full,
      use_yolo := true, scene_detection := false, full_resolution := false,
      enable_audio := true, workers := none }
  | .maximum =>
    { thoroughness := .maximum, sample_frames := 240, sample_percentage := none,
      color_clusters := 16, motion_resolution := 720, face_model := .full,
      use_yolo := true, scene_detection := false, full_resolution := false,
      enable_audio := true, workers := none }
  | .extreme =>
    { thoroughness := .extreme, sample_frames := 300, sample_percentage := none,
      color_clusters := 20, motion_resolution := 1080, face_model := .full,
      use_yolo := true, scene_detection := false, full_resolution := false,
      enable_audio := true, workers := none }

/-- Modelled from the spec: preset defaults after the forced-extreme
post-pass — the `extreme` preset forces `scene_detection = true` and
`full_resolution = true` before explicit overrides are applied (spec §4.1). -/
def baseConfig (preset : Preset) : AnalysisConfig :=
  if preset = .extreme then
    { presetDefaults preset with scene_detection := true, full_resolution := true }
  else presetDefaults preset

/-- Modelled from the spec: building the resolved config from validated
overrides, in the documented order: preset defaults, then the forced-extreme
post-pass, then explicit overrides field by field (spec §4.1).  When
`sample_percentage` is supplied it takes precedence and an explicit
`sample_frames` override is ignored (spec §4.1, §6). -/
def buildConfig (preset : Preset) (ov : Overrides) : AnalysisConfig :=
  let base := baseConfig preset
  { thoroughness := preset
    sample_frames :=
      match ov.sample_percentage, ov.sample_frames with
      | some _, _ => base.sample_frames
      | none, some f => f.toNat
      | none, none => base.sample_frames
    sample_percentage := ov.sample_percentage.map Int.toNat
    color_clusters := (ov.color_clusters.map Int.toNat).getD base.color_clusters
    motion_resolution := (ov.motion_resolution.map Int.toNat).getD base.motion_resolution
    face_model := ov.face_model.getD base.face_model
    use_yolo := base.use_yolo
    scene_detection := ov.scene_detection.getD base.scene_detection
    full_resolution := ov.full_resolution.getD base.full_resolution
    enable_audio := ov.enable_audio.getD base.enable_audio
    workers := ov.workers.map Int.toNat }

/-- Modelled from the spec: `resolve_config(preset, overrides) ->
AnalysisConfig`, failing with `ConfigError` when an override falls outside
its documented numeric bound — never clamping (spec §4.1, §7). -/
def resolve_config (preset : Preset) (ov : Overrides) : Except ConfigError AnalysisConfig :=
  match validateOverrides ov with
  | some e => .error e
  | none => .ok (buildConfig preset ov)

/-- Every numeric field of a resolved config is within its documented bound
(spec §3): `sample_frames` 1-300, `sample_percentage` 1-100 when set,
`color_clusters` 3-20, `motion_resolution` 80-1080, `workers` ≥ 1 or unset. -/
def boundsOk (c : AnalysisConfig) : Bool :=
  decide (1 ≤ c.sample_frames) && decide (c.sample_frames ≤ 300) &&
  (match c.sample_percentage with
   | none => true
   | some p => decide (1 ≤ p) && decide (p ≤ 100)) &&
  decide (3 ≤ c.color_clusters) && decide (c.color_clusters ≤ 20) &&
  decide (80 ≤ c.motion_resolution) && decide (c.motion_resolution ≤ 1080) &&
  (match c.workers with
   | none => true
   | some w => decide (1 ≤ w))

/-- Modelled from the spec: the frame sampler `sample(video, config)`
(spec §4.2), reduced to the ordered, materialized list of selected frame
indices for a video with `totalFrames` addressable frames.  When
`sample_percentage` is set, that fraction of the total frames is selected,
evenly spaced; otherwise `sample_frames` evenly spaced frames, clamped to
the video's actual frame count. -/
def sampleIndices (totalFrames : Nat) (cfg : AnalysisConfig) : List Nat :=
  let count :=
    match cfg.sample_percentage with
    | some p => totalFrames * p / 100
    | none => min cfg.sample_frames totalFrames
  (List.range count).map (fun i => i * totalFrames / count)

/-- Modelled from the spec: the observable behaviour of one video file under
the opaque feature extractors (spec §4.3, §4.4).  `openable` is false for a
corrupt or unreadable file; each `...Out` field is the outcome the
corresponding extractor produces on this video (`Except.error` models an
`ExtractionError`). -/
structure Video where
  path : String
  frameCount : Nat
  openable : Bool
  colorOut : Except String Nat
  motionOut : Except String Nat
  faceOut : Except String Nat
  yoloOut : Except String Nat
  sceneOut : Except String Nat
  audioOut : Except String Nat

/-- Modelled from the spec: `AnalysisResult` (spec §3) — the ordered error
list, the structured `video_quality` summary, and the per-extractor
sub-results (`none` = unpopulated). -/
structure AnalysisResult where
  errors : List String
  video_quality : Option Nat
  color : Option Nat
  motion : Option Nat
  face : Option Nat
  objects : Option Nat
  scenes : Option Nat
  audio : Option Nat
deriving DecidableEq

/-- Whether an extractor outcome is a success. -/
def exceptOk {ε α : Type} : Except ε α → Bool
  | .ok _ => true
  | .error _ => false

/-- Runs one extractor if enabled, converting a failure into an error
message (extractor name plus exception summary) instead of letting it
propagate: returns the optional sub-result and the errors contributed. -/
def applyExtractor (enabled : Bool) (name : String) (out : Except String Nat) :
    Option Nat × List String :=
  if enabled then
    match out with
    | .ok v => (some v, [])
    | .error e => (none, [name ++ ": " ++ e])
  else (none, [])

/-- Modelled from the spec: the Per-Video Analyzer `analyze(video) ->
AnalysisResult` (spec §4.4).  It is a total function (never raises): a video
that cannot be opened yields a single top-level error with empty quality
data; otherwise every enabled extractor runs, and each extractor failure is
recorded in `errors` without stopping the remaining extractors. -/
def analyze (cfg : AnalysisConfig) (v : Video) : AnalysisResult :=
  if v.openable then
    let c := applyExtractor true "color" v.colorOut
    let m := applyExtractor true "motion" v.motionOut
    let f := applyExtractor true "face" v.faceOut
    let y := applyExtractor cfg.use_yolo "yolo" v.yoloOut
    let s := applyExtractor cfg.scene_detection "scene" v.sceneOut
    let a := applyExtractor cfg.enable_audio "audio" v.audioOut
    { errors := c.2 ++ m.2 ++ f.2 ++ y.2 ++ s.2 ++ a.2
      video_quality := some v.frameCount
      color := c.1, motion := m.1, face := f.1
      objects := y.1, scenes := s.1, audio := a.1 }
  else
    { errors := ["cannot open video: " ++ v.path]
      video_quality := none, color := none, motion := none, face := none,
      objects := none, scenes := none, audio := none }

/-- Every extractor the config enables succeeds on this video (the
always-on color, motion and face extractors, plus the toggled ones). -/
def extractorsOk (cfg : AnalysisConfig) (v : Video) : Bool :=
  exceptOk v.colorOut && exceptOk v.motionOut && exceptOk v.faceOut &&
  (!cfg.use_yolo || exceptOk v.yoloOut) &&
  (!cfg.scene_detection || exceptOk v.sceneOut) &&
  (!cfg.enable_audio || exceptOk v.audioOut)

/-- Modelled from the spec: the Batch Engine loop (spec §4.5), processing
the remaining videos in completion order.  Each completed per-video run
contributes its `(path, result)` entry to the result mapping and exactly one
`progress_callback(completed, total)` invocation; `done` is the number of
completions already observed. -/
def analyzeBatchAux (cfg : AnalysisConfig) (total : Nat) :
    Nat → List Video → List (String × AnalysisResult) × List (Nat × Nat)
  | _, [] => ([], [])
  | done, v :: vs =>
    let rest := analyzeBatchAux cfg total (done + 1) vs
    ((v.path, analyze cfg v) :: rest.1, (done + 1, total) :: rest.2)

/-- Modelled from the spec: `analyze_batch(videos, workers,
progress_callback)` (spec §4.5): the result mapping as an association list
in completion order, together with the full trace of `progress_callback`
invocations.  The argument list is the batch in the completion order some
worker schedule produced; order independence of the mapping is proved over
all permutations. -/
def analyzeBatch (cfg : AnalysisConfig) (videos : List Video) :
    List (String × AnalysisResult) × List (Nat × Nat) :=
  analyzeBatchAux cfg videos.length 0 videos

/-- First-match association-list lookup over the batch result mapping. -/
def aLookup (p : String) : List (String × AnalysisResult) → Option AnalysisResult
  | [] => none
  | (k, r) :: rest => if k = p then some r else aLookup p rest

/-- Modelled from the spec: a per-video metadata record (spec §4.6, §6):
the pre-existing fields owned by the external metadata writer, plus the
"analysis" section the merger writes. -/
structure MetadataRecord where
  otherFields : List (String × String)
  analysis : Option AnalysisResult
deriving DecidableEq

/-- The empty record used when no metadata record exists yet (spec §4.6). -/
def emptyRecord : MetadataRecord :=
  { otherFields := [], analysis := none }

/-- The result has any populated `video_quality` data worth persisting
(spec §4.6). -/
def hasUsableData (r : AnalysisResult) : Bool :=
  r.video_quality.isSome

/-- Modelled from the spec: the Result Merger `merge(metadata_path, result)
-> bool` (spec §4.6), with the filesystem made explicit: `existing` is the
record currently on disk (`none` = absent, treated as an empty record) and
`persistOk` is whether the atomic write succeeds.  Returns the record on
disk after the call and the reported success: success even with a non-empty
error list as long as `video_quality` is populated; failure only on a
persistence failure or when there is no usable data to write. -/
def merge (existing : Option MetadataRecord) (r : AnalysisResult) (persistOk : Bool) :
    MetadataRecord × Bool :=
  let base := existing.getD emptyRecord
  if persistOk then ({ base with analysis := some r }, hasUsableData r)
  else (base, false)

/-- Embedded from `main.py`, `run_analysis` lines 282-299: the per-pair
branch of the counting loop.  `results` is the batch result mapping and
`update` is the boolean-returning `analyzer.update_metadata_file`; returns
whether this `(video_path, json_path)` pair is counted towards
`success_count` rather than `fail_count`.  In the non-empty-errors branch
the metadata file is still updated but the returned boolean is not
consulted: the count follows the truthiness of `result.video_quality`. -/
def videoOutcome (results : String → Option AnalysisResult)
    (update : String → AnalysisResult → Bool)
    (video_path json_path : String) : Bool :=
  match results video_path with
  | none => false
  | some result =>
    if result.errors.isEmpty then update json_path result
    else result.video_quality.isSome

/-- Embedded from `main.py`, `run_analysis` lines 279-299: the counting
loop over the discovered `(video_path, json_path)` pairs, returning
`(success_count, fail_count)`. -/
def runAnalysisCounts (results : String → Option AnalysisResult)
    (update : String → AnalysisResult → Bool) :
    List (String × String) → Nat × Nat
  | [] => (0, 0)
  | pr :: rest =>
    let acc := runAnalysisCounts results update rest
    if videoOutcome results update pr.1 pr.2 then (acc.1 + 1, acc.2)
    else (acc.1, acc.2 + 1)

/-- Concrete config used by the closed witness statements. -/
def cfgW : AnalysisConfig := buildConfig .balanced {}

/-- A healthy video: opens fine and every extractor succeeds. -/
def videoGood : Video :=
  { path := "a.mp4", frameCount := 120, openable := true,
    colorOut := .ok 1, motionOut := .ok 2, faceOut := .ok 3,
    yoloOut := .ok 4, sceneOut := .ok 5, audioOut := .ok 6 }

/-- A corrupt video: the file cannot be opened at all. -/
def videoBad : Video :=
  { path := "b.mp4", frameCount := 0, openable := false,
    colorOut := .error "unreadable", motionOut := .error "unreadable",
    faceOut := .error "unreadable", yoloOut := .error "unreadable",
    sceneOut := .error "unreadable", audioOut := .error "unreadable" }

/-- A result with a non-empty error list but populated quality data. -/
def resultErrW : AnalysisResult :=
  { errors := ["color: kmeans failed"], video_quality := some 7,
    color := none, motion := some 1, face := some 0,
    objects := none, scenes := none, audio := some 2 }

/-- A metadata record with pre-existing fields unrelated to analysis. -/
def recordW : MetadataRecord :=
  { otherFields := [("url", "https://example/v"), ("author", "someone")],
    analysis := none }

/-- A concrete batch result mapping for the witnesses: only "a.mp4" has an
entry. -/
def resultsW : String → Option AnalysisResult :=
  fun p => if p = "a.mp4" then some (analyze cfgW videoGood) else none

/-- A concrete batch result mapping whose single entry carries errors. -/
def resultsErrW : String → Option AnalysisResult :=
  fun p => if p = "b.mp4" then some resultErrW else none

/-- A metadata updater that always reports a successful write. -/
def updTrue : String → AnalysisResult → Bool := fun _ _ => true

/-- A metadata updater that always reports a failed write. -/
def updFalse : String → AnalysisResult → Bool := fun _ _ => false

theorem orElse_none_iff {α : Type} (a : Option α) (f : Unit → Option α) :
    (a.orElse f) = none ↔ a = none ∧ f () = none := by
  cases a <;> simp [Option.orElse]

theorem rangeError_none {field : String} {lo hi v : Int}
    (h : rangeError field lo hi (some v) = none) : lo ≤ v ∧ v ≤ hi := by
  simp only [rangeError] at h
  split at h
  · simp at h
  · rename_i hc
    simp only [Bool.or_eq_true, decide_eq_true_eq, not_or] at hc
    omega

theorem minError_none {field : String} {lo v : Int}
    (h : minError field lo (some v) = none) : lo ≤ v := by
  simp only [minError] at h
  split at h
  · simp at h
  · rename_i hc
    omega

theorem buildConfig_sample_frames (p : Preset) (ov : Overrides)
    (h : rangeError "sample_frames" 1 300 ov.sample_frames = none) :
    1 ≤ (buildConfig p ov).sample_frames ∧ (buildConfig p ov).sample_frames ≤ 300 := by
  have hbase : 1 ≤ (baseConfig p).sample_frames ∧ (baseConfig p).sample_frames ≤ 300 := by
    cases p <;> decide
  cases hsp : ov.sample_percentage with
  | some q => simpa [buildConfig, hsp] using hbase
  | none =>
    cases hsf : ov.sample_frames with
    | none => simpa [buildConfig, hsp, hsf] using hbase
    | some f =>
      have hf := rangeError_none (hsf ▸ h)
      simp only [buildConfig, hsp, hsf]
      omega

theorem buildConfig_sample_percentage (p : Preset) (ov : Overrides)
    (h : rangeError "sample_percentage" 1 100 ov.sample_percentage = none) :
    ∀ q, (buildConfig p ov).sample_percentage = some q → 1 ≤ q ∧ q ≤ 100 := by
  intro q hq
  cases hsp : ov.sample_percentage with
  | none => simp [buildConfig, hsp] at hq
  | some v =>
    have hv := rangeError_none (hsp ▸ h)
    simp [buildConfig, hsp] at hq
    omega

theorem buildConfig_color_clusters (p : Preset) (ov : Overrides)
    (h : rangeError "color_clusters" 3 20 ov.color_clusters = none) :
    3 ≤ (buildConfig p ov).color_clusters ∧ (buildConfig p ov).color_clusters ≤ 20 := by
  have hbase : 3 ≤ (baseConfig p).color_clusters ∧ (baseConfig p).color_clusters ≤ 20 := by
    cases p <;> decide
  cases hcc : ov.color_clusters with
  | none => simpa [buildConfig, hcc] using hbase
  | some v =>
    have hv := rangeError_none (hcc ▸ h)
    simp [buildConfig, hcc]
    omega

theorem buildConfig_motion_resolution (p : Preset) (ov : Overrides)
    (h : rangeError "motion_resolution" 80 1080 ov.motion_resolution = none) :
    80 ≤ (buildConfig p ov).motion_resolution ∧
      (buildConfig p ov).motion_resolution ≤ 1080 := by
  have hbase : 80 ≤ (baseConfig p).motion_resolution ∧
      (baseConfig p).motion_resolution ≤ 1080 := by
    cases p <;> decide
  cases hmr : ov.motion_resolution with
  | none => simpa [buildConfig, hmr] using hbase
  | some v =>
    have hv := rangeError_none (hmr ▸ h)
    simp [buildConfig, hmr]
    omega

theorem buildConfig_workers (p : Preset) (ov : Overrides)
    (h : minError "workers" 1 ov.workers = none) :
    ∀ w, (buildConfig p ov).workers = some w → 1 ≤ w := by
  intro w hw
  cases hwo : ov.workers with
  | none => simp [buildConfig, hwo] at hw
  | some v =>
    have hv := minError_none (hwo ▸ h)
    simp [buildConfig, hwo] at hw
    omega

theorem buildConfig_boundsOk (p : Preset) (ov : Overrides)
    (h : validateOverrides ov = none) : boundsOk (buildConfig p ov) = true := by
  unfold validateOverrides at h
  rw [orElse_none_iff] at h
  obtain ⟨hsf, h⟩ := h
  rw [orElse_none_iff] at h
  obtain ⟨hsp, h⟩ := h
  rw [orElse_none_iff] at h
  obtain ⟨hcc, h⟩ := h
  rw [orElse_none_iff] at h
  obtain ⟨hmr, hw⟩ := h
  have h1 := buildConfig_sample_frames p ov hsf
  have h2 := buildConfig_sample_percentage p ov hsp
  have h3 := buildConfig_color_clusters p ov hcc
  have h4 := buildConfig_motion_resolution p ov hmr
  have h5 := buildConfig_workers p ov hw
  cases hq : (buildConfig p ov).sample_percentage with
  | none =>
    cases hwc : (buildConfig p ov).workers with
    | none =>
      simp only [boundsOk, hq, hwc, Bool.and_eq_true, decide_eq_true_eq, Bool.and_true,
        and_true, true_and]
      omega
    | some w =>
      have := h5 w hwc
      simp only [boundsOk, hq, hwc, Bool.and_eq_true, decide_eq_true_eq, Bool.and_true,
        and_true, true_and]
      omega
  | some q =>
    have := h2 q hq
    cases hwc : (buildConfig p ov).workers with
    | none =>
      simp only [boundsOk, hq, hwc, Bool.and_eq_true, decide_eq_true_eq, Bool.and_true,
        and_true, true_and]
      omega
    | some w =>
      have := h5 w hwc
      simp only [boundsOk, hq, hwc, Bool.and_eq_true, decide_eq_true_eq, Bool.and_true,
        and_true, true_and]
      omega

/-- C2: for every preset and every override set, if `resolve_config`
succeeds then every numeric field of the returned config lies within its
documented bound (`sample_frames` 1-300, `sample_percentage` 1-100 when set,
`color_clusters` 3-20, `motion_resolution` 80-1080, `workers` ≥ 1 or unset),
and no field is left unset (every non-optional field of `AnalysisConfig` is
total by construction); and for an override value outside its documented
bound (`sample_frames = 0`), `resolve_config` fails with a `ConfigError`
rather than clamping. -/
theorem resolve_config_bounds :
    (∀ (p : Preset) (ov : Overrides) (c : AnalysisConfig),
        resolve_config p ov = .ok c → boundsOk c = true) ∧
    resolve_config Preset.balanced { sample_frames := some 0 } =
      .error (.outOfRange "sample_frames" 0) := by
  constructor
  · intro p ov c h
    unfold resolve_config at h
    cases hv : validateOverrides ov with
    | some e => rw [hv] at h; simp at h
    | none =>
      rw [hv] at h
      injection h with h
      exact h ▸ buildConfig_boundsOk p ov hv
  · rfl

/-- Witness for C2 at a concrete input: resolving the `quick` preset with no
overrides succeeds and the resulting config is within bounds. -/
theorem resolve_config_bounds_witness :
    boundsOk (buildConfig Preset.quick {}) = true :=
  resolve_config_bounds.1 Preset.quick {} (buildConfig Preset.quick {}) rfl

/-- C3: the `extreme` preset with no overrides resolves with
`scene_detection = true` and `full_resolution = true`; with an explicit
override `scene_detection = false`, the resolved config has
`scene_detection = false` while `full_resolution` stays forced to true
(overrides are applied after the forced-extreme defaults). -/
theorem extreme_forced_defaults :
    (resolve_config Preset.extreme {}).map
        (fun c => (c.scene_detection, c.full_resolution)) = .ok (true, true) ∧
    (resolve_config Preset.extreme { scene_detection := some false }).map
        (fun c => (c.scene_detection, c.full_resolution)) = .ok (false, true) :=
  ⟨rfl, rfl⟩

/-- C4: the sampler is deterministic (it is a pure function of the video's
frame count and the config); with `sample_percentage` set it selects that
fraction of the total frames, otherwise `sample_frames` frames clamped to
the actual frame count; and for `sample_percentage = 50` over 100 frames it
selects exactly the 50 evenly spaced indices 0, 2, ..., 98. -/
theorem sampler_spec :
    (∀ (t₁ t₂ : Nat) (c₁ c₂ : AnalysisConfig), t₁ = t₂ → c₁ = c₂ →
        sampleIndices t₁ c₁ = sampleIndices t₂ c₂) ∧
    (∀ (t : Nat) (c : AnalysisConfig) (p : Nat), c.sample_percentage = some p →
        (sampleIndices t c).length = t * p / 100) ∧
    (∀ (t : Nat) (c : AnalysisConfig), c.sample_percentage = none →
        (sampleIndices t c).length = min c.sample_frames t) ∧
    sampleIndices 100 (buildConfig .balanced { sample_percentage := some 50 }) =
      (List.range 50).map (fun i => 2 * i) := by
  refine ⟨?_, ?_, ?_, ?_⟩
  · intro t₁ t₂ c₁ c₂ ht hc
    rw [ht, hc]
  · intro t c p h
    simp [sampleIndices, h]
  · intro t c h
    simp [sampleIndices, h]
  · rfl

/-- Witness for C4 at a concrete input: 50 percent of a 100-frame video
yields exactly 50 indices. -/
theorem sampler_spec_witness :
    (sampleIndices 100 (buildConfig .balanced { sample_percentage := some 50 })).length =
      100 * 50 / 100 :=
  sampler_spec.2.1 100 (buildConfig .balanced { sample_percentage := some 50 }) 50 rfl

theorem applyExtractor_no_error (enabled : Bool) (name : String)
    (out : Except String Nat) (h : enabled = false ∨ exceptOk out = true) :
    (applyExtractor enabled name out).2 = [] := by
  cases enabled
  · rfl
  · cases h with
    | inl h => simp at h
    | inr h =>
      cases out with
      | ok v => rfl
      | error e => simp [exceptOk] at h

theorem analyze_errors_nil (cfg : AnalysisConfig) (v : Video)
    (hopen : v.openable = true) (hok : extractorsOk cfg v = true) :
    (analyze cfg v).errors = [] := by
  simp only [extractorsOk, Bool.and_eq_true, Bool.or_eq_true, Bool.not_eq_true'] at hok
  obtain ⟨⟨⟨⟨⟨hc, hm⟩, hf⟩, hy⟩, hs⟩, ha⟩ := hok
  simp [analyze, hopen,
    applyExtractor_no_error true "color" v.colorOut (Or.inr hc),
    applyExtractor_no_error true "motion" v.motionOut (Or.inr hm),
    applyExtractor_no_error true "face" v.faceOut (Or.inr hf),
    applyExtractor_no_error cfg.use_yolo "yolo" v.yoloOut hy,
    applyExtractor_no_error cfg.scene_detection "scene" v.sceneOut hs,
    applyExtractor_no_error cfg.enable_audio "audio" v.audioOut ha]

theorem analyze_unopenable (cfg : AnalysisConfig) (v : Video)
    (hopen : v.openable = false) : (analyze cfg v).errors ≠ [] := by
  simp [analyze, hopen]

theorem analyzeBatchAux_results (cfg : AnalysisConfig) (total : Nat)
    (vs : List Video) : ∀ done : Nat,
    (analyzeBatchAux cfg total done vs).1 = vs.map (fun v => (v.path, analyze cfg v)) := by
  induction vs with
  | nil => intro done; rfl
  | cons v vs ih =>
    intro done
    simp [analyzeBatchAux, ih (done + 1)]

theorem analyzeBatch_results (cfg : AnalysisConfig) (videos : List Video) :
    (analyzeBatch cfg videos).1 = videos.map (fun v => (v.path, analyze cfg v)) :=
  analyzeBatchAux_results cfg videos.length videos 0

/-- C1: `analyze_batch` over N videos returns one result entry per
dispatched video (the mapping is exactly the per-video results, size N);
`analyze` is total, so no per-video failure propagates as an exception out
of the batch engine; a corrupt or unopenable video still yields an entry
whose error list is non-empty, while an openable video on which every
enabled extractor succeeds yields an error-free entry. -/
theorem analyze_batch_isolation (cfg : AnalysisConfig) (videos : List Video) :
    (analyzeBatch cfg videos).1 = videos.map (fun v => (v.path, analyze cfg v)) ∧
    ((analyzeBatch cfg videos).1).length = videos.length ∧
    (∀ v, v ∈ videos → v.openable = false → (analyze cfg v).errors ≠ []) ∧
    (∀ v, v ∈ videos → v.openable = true → extractorsOk cfg v = true →
        (analyze cfg v).errors = []) := by
  refine ⟨analyzeBatch_results cfg videos, ?_, ?_, ?_⟩
  · rw [analyzeBatch_results cfg videos, List.length_map]
  · intro v _ hopen
    exact analyze_unopenable cfg v hopen
  · intro v _ hopen hok
    exact analyze_errors_nil cfg v hopen hok

/-- Witness for C1 at a concrete batch of two videos, one corrupt: the
mapping has size 2, the corrupt video's entry has errors, the healthy one
is error-free. -/
theorem analyze_batch_isolation_witness :
    ((analyzeBatch cfgW [videoBad, videoGood]).1).length = 2 ∧
    (analyze cfgW videoBad).errors ≠ [] ∧
    (analyze cfgW videoGood).errors = [] :=
  ⟨(analyze_batch_isolation cfgW [videoBad, videoGood]).2.1,
   (analyze_batch_isolation cfgW [videoBad, videoGood]).2.2.1 videoBad
     (by simp) rfl,
   (analyze_batch_isolation cfgW [videoBad, videoGood]).2.2.2 videoGood
     (by simp) rfl rfl⟩

theorem analyzeBatchAux_trace (cfg : AnalysisConfig) (total : Nat)
    (vs : List Video) : ∀ done : Nat,
    (analyzeBatchAux cfg total done vs).2 =
      (List.range vs.length).map (fun i => (done + i + 1, total)) := by
  induction vs with
  | nil => intro done; rfl
  | cons v vs ih =>
    intro done
    simp only [analyzeBatchAux, ih (done + 1), List.length_cons]
    rw [List.range_succ_eq_map]
    simp only [List.map_cons, List.map_map, Nat.add_zero]
    refine List.cons_eq_cons.mpr ⟨rfl, ?_⟩
    apply List.map_congr_left
    intro a _
    simp only [Function.comp_apply, Prod.mk.injEq, and_true]
    omega

theorem analyzeBatch_trace (cfg : AnalysisConfig) (videos : List Video) :
    (analyzeBatch cfg videos).2 =
      (List.range videos.length).map (fun i => (i + 1, videos.length)) := by
  have h := analyzeBatchAux_trace cfg videos.length videos 0
  simpa [analyzeBatch] using h

/-- C5: over a batch of N videos the progress callback is invoked exactly N
times, once per completed video (the i-th invocation carries completed
count i+1), the completed count is monotonically non-decreasing across
invocations, and the final invocation carries completed count N. -/
theorem progress_callback_spec (cfg : AnalysisConfig) (videos : List Video) :
    ((analyzeBatch cfg videos).2).length = videos.length ∧
    (∀ i, i < videos.length →
        ((analyzeBatch cfg videos).2)[i]? = some (i + 1, videos.length)) ∧
    (∀ (i j : Nat) (ci cj : Nat × Nat), i ≤ j →
        ((analyzeBatch cfg videos).2)[i]? = some ci →
        ((analyzeBatch cfg videos).2)[j]? = some cj → ci.1 ≤ cj.1) ∧
    (videos.length ≠ 0 →
        ((analyzeBatch cfg videos).2)[videos.length - 1]? =
          some (videos.length, videos.length)) := by
  have htr := analyzeBatch_trace cfg videos
  have hlen : ((analyzeBatch cfg videos).2).length = videos.length := by
    rw [htr]; simp
  have hget : ∀ i, i < videos.length →
      ((analyzeBatch cfg videos).2)[i]? = some (i + 1, videos.length) := by
    intro i hi
    rw [htr, List.getElem?_map, List.getElem?_range hi]
    rfl
  refine ⟨hlen, hget, ?_, ?_⟩
  · intro i j ci cj hij hi hj
    have hjlt : j < videos.length := by
      by_contra hc
      rw [List.getElem?_eq_none (by omega)] at hj
      cases hj
    have hilt : i < videos.length := by omega
    rw [hget i hilt] at hi
    rw [hget j hjlt] at hj
    injection hi with hi
    injection hj with hj
    rw [← hi, ← hj]
    simp
    omega
  · intro hne
    have h := hget (videos.length - 1) (by omega)
    rw [h]
    congr 2
    omega

/-- Witness for C5 at a concrete two-video batch: two invocations, the
first with completed count 1, the last with completed count 2. -/
theorem progress_callback_spec_witness :
    ((analyzeBatch cfgW [videoBad, videoGood]).2).length = 2 ∧
    ((analyzeBatch cfgW [videoBad, videoGood]).2)[0]? = some (1, 2) ∧
    ((analyzeBatch cfgW [videoBad, videoGood]).2)[1]? = some (2, 2) :=
  ⟨(progress_callback_spec cfgW [videoBad, videoGood]).1,
   (progress_callback_spec cfgW [videoBad, videoGood]).2.1 0 (by decide),
   (progress_callback_spec cfgW [videoBad, videoGood]).2.2.2 (by decide)⟩

theorem aLookup_eq_some_mem (p : String) (r : AnalysisResult) :
    ∀ l : List (String × AnalysisResult), aLookup p l = some r → (p, r) ∈ l := by
  intro l
  induction l with
  | nil => intro h; cases h
  | cons kv rest ih =>
    intro h
    obtain ⟨k, x⟩ := kv
    by_cases hk : k = p
    · simp [aLookup, hk] at h
      subst hk
      subst h
      exact List.mem_cons_self _ _
    · simp [aLookup, hk] at h
      exact List.mem_cons_of_mem _ (ih h)

theorem mem_aLookup_eq_some (p : String) (r : AnalysisResult) :
    ∀ l : List (String × AnalysisResult), (l.map Prod.fst).Nodup →
      (p, r) ∈ l → aLookup p l = some r := by
  intro l
  induction l with
  | nil => intro _ h; cases h
  | cons kv rest ih =>
    intro hnd h
    obtain ⟨k, x⟩ := kv
    simp only [List.map_cons, List.nodup_cons] at hnd
    cases List.mem_cons.mp h with
    | inl heq =>
      obtain ⟨hk, hx⟩ := Prod.mk.injEq .. ▸ heq
      simp [aLookup, hk.symm, hx]
    | inr hmem =>
      have hk : k ≠ p := by
        intro hk
        subst hk
        exact hnd.1 (List.mem_map.mpr ⟨(k, r), hmem, rfl⟩)
      simp [aLookup, hk]
      exact ih hnd.2 hmem

theorem aLookup_eq_none_iff (p : String) :
    ∀ l : List (String × AnalysisResult),
      aLookup p l = none ↔ p ∉ l.map Prod.fst := by
  intro l
  induction l with
  | nil => simp [aLookup]
  | cons kv rest ih =>
    obtain ⟨k, x⟩ := kv
    by_cases hk : k = p
    · simp [aLookup, hk]
    · simp [aLookup, hk, ih, Ne.symm hk]

theorem aLookup_perm (l₁ l₂ : List (String × AnalysisResult))
    (hp : l₁.Perm l₂) (nd : (l₁.map Prod.fst).Nodup) (p : String) :
    aLookup p l₁ = aLookup p l₂ := by
  have nd₂ : (l₂.map Prod.fst).Nodup := ((hp.map Prod.fst).nodup_iff).mp nd
  cases h₁ : aLookup p l₁ with
  | some r =>
    exact (mem_aLookup_eq_some p r l₂ nd₂
      (hp.subset (aLookup_eq_some_mem p r l₁ h₁))).symm
  | none =>
    rw [aLookup_eq_none_iff] at h₁
    have : p ∉ l₂.map Prod.fst := fun hmem =>
      h₁ ((hp.map Prod.fst).mem_iff.mpr hmem)
    exact ((aLookup_eq_none_iff p l₂).mpr this).symm

/-- C8: the per-video result mapping produced by `analyze_batch` does not
depend on the completion order of the workers: for a batch whose video
paths are distinct, any permutation of the completion order (in particular
the one of a single worker versus any N ≥ 1 workers) yields the same result
for every looked-up path, because each video is analyzed exactly once by
the pure per-video analyzer. -/
theorem worker_count_independence (cfg : AnalysisConfig)
    (vs₁ vs₂ : List Video) (hperm : vs₁.Perm vs₂)
    (hnd : (vs₁.map Video.path).Nodup) (p : String) :
    aLookup p (analyzeBatch cfg vs₁).1 = aLookup p (analyzeBatch cfg vs₂).1 := by
  rw [analyzeBatch_results cfg vs₁, analyzeBatch_results cfg vs₂]
  apply aLookup_perm
  · exact hperm.map _
  · simpa [List.map_map, Function.comp] using hnd

/-- Witness for C8 at a concrete batch: swapping the completion order of
two distinct videos leaves the looked-up results unchanged. -/
theorem worker_count_independence_witness :
    aLookup "a.mp4" (analyzeBatch cfgW [videoBad, videoGood]).1 =
      aLookup "a.mp4" (analyzeBatch cfgW [videoGood, videoBad]).1 :=
  worker_count_independence cfgW [videoBad, videoGood] [videoGood, videoBad]
    (List.Perm.swap videoGood videoBad []) (by decide) "a.mp4"

/-- C6: merging a result whose error list is non-empty but whose
`video_quality` is populated still writes the analysis section and reports
success; a merge reports failure only when persistence itself fails or when
there is no usable data at all to write. -/
theorem merge_partial_data (existing : Option MetadataRecord)
    (r : AnalysisResult) (persistOk : Bool) :
    (r.errors ≠ [] → hasUsableData r = true → persistOk = true →
        (merge existing r persistOk).2 = true ∧
        (merge existing r persistOk).1.analysis = some r) ∧
    ((merge existing r persistOk).2 = false →
        persistOk = false ∨ hasUsableData r = false) := by
  constructor
  · intro _ hq hp
    subst hp
    simp [merge, hq]
  · intro hf
    cases persistOk
    · exact Or.inl rfl
    · cases hq : hasUsableData r
      · exact Or.inr rfl
      · simp [merge, hq] at hf

/-- Witness for C6 at a concrete input: a result with one error and
populated quality data merges successfully and lands in the record. -/
theorem merge_partial_data_witness :
    (merge (some recordW) resultErrW true).2 = true ∧
    (merge (some recordW) resultErrW true).1.analysis = some resultErrW :=
  (merge_partial_data (some recordW) resultErrW true).1 (by decide) rfl rfl

/-- C7: merging `r₁` then `r₂` for the same video leaves only `r₂`'s
analysis section present (overwrite, not accumulation), and each of the two
merges leaves every pre-existing field outside the analysis section
unchanged. -/
theorem merge_overwrite (rec : MetadataRecord) (r₁ r₂ : AnalysisResult) :
    ((merge (some ((merge (some rec) r₁ true).1)) r₂ true).1).analysis = some r₂ ∧
    ((merge (some rec) r₁ true).1).otherFields = rec.otherFields ∧
    ((merge (some ((merge (some rec) r₁ true).1)) r₂ true).1).otherFields =
      rec.otherFields := by
  simp [merge]

/-- C9: in `run_analysis` (main.py lines 279-308), every discovered
`(video_path, json_path)` pair is counted exactly once — the returned
`success_count` plus `fail_count` equals the number of discovered pairs —
and a pair whose video path is absent from the batch result mapping is
counted as failed. -/
theorem run_analysis_counts_partition (results : String → Option AnalysisResult)
    (update : String → AnalysisResult → Bool) (videos : List (String × String)) :
    (runAnalysisCounts results update videos).1 +
        (runAnalysisCounts results update videos).2 = videos.length ∧
    (∀ vp jp : String, results vp = none →
        videoOutcome results update vp jp = false) := by
  constructor
  · induction videos with
    | nil => rfl
    | cons pr rest ih =>
      simp only [runAnalysisCounts, List.length_cons]
      split <;> simp <;> omega
  · intro vp jp h
    simp [videoOutcome, h]

/-- Witness for C9 at a concrete input: two discovered pairs, one of which
is absent from the result mapping; counts sum to 2 and the absent one is
counted as failed. -/
theorem run_analysis_counts_partition_witness :
    (runAnalysisCounts resultsW updTrue [("a.mp4", "a.json"), ("c.mp4", "c.json")]).1 +
        (runAnalysisCounts resultsW updTrue [("a.mp4", "a.json"), ("c.mp4", "c.json")]).2 = 2 ∧
    videoOutcome resultsW updTrue "c.mp4" "c.json" = false :=
  ⟨(run_analysis_counts_partition resultsW updTrue
      [("a.mp4", "a.json"), ("c.mp4", "c.json")]).1,
   (run_analysis_counts_partition resultsW updTrue
      [("a.mp4", "a.json"), ("c.mp4", "c.json")]).2 "c.mp4" "c.json" (by decide)⟩

/-- C10: in `run_analysis` (main.py lines 285-297), when a video's result
has a non-empty error list the boolean returned by `update_metadata_file`
is ignored — the video counts as analyzed exactly when `video_quality` is
populated, for any updater behaviour — while with an empty error list the
count follows the updater's returned boolean. -/
theorem update_return_ignored_on_errors (results : String → Option AnalysisResult)
    (u₁ u₂ : String → AnalysisResult → Bool) (vp jp : String)
    (r : AnalysisResult) (h : results vp = some r) :
    (r.errors ≠ [] →
        videoOutcome results u₁ vp jp = r.video_quality.isSome ∧
        videoOutcome results u₁ vp jp = videoOutcome results u₂ vp jp) ∧
    (r.errors = [] → videoOutcome results u₁ vp jp = u₁ jp r) := by
  constructor
  · intro herr
    have he : r.errors.isEmpty = false := by
      cases hr : r.errors with
      | nil => exact absurd hr herr
      | cons a t => rfl
    constructor <;> simp [videoOutcome, h, he]
  · intro herr
    simp [videoOutcome, h, herr]

/-- Witness for C10 at a concrete input: the entry for "b.mp4" carries an
error but populated quality data, so it is counted as analyzed under both
an always-failing and an always-succeeding updater. -/
theorem update_return_ignored_on_errors_witness :
    (videoOutcome resultsErrW updFalse "b.mp4" "b.json" =
        resultErrW.video_quality.isSome ∧
      videoOutcome resultsErrW updFalse "b.mp4" "b.json" =
        videoOutcome resultsErrW updTrue "b.mp4" "b.json") :=
  (update_return_ignored_on_errors resultsErrW updFalse updTrue
    "b.mp4" "b.json" resultErrW rfl).1 (by decide)

end TikTokAnalyzer
